import Mathlib

/-!
Verification of the `aq_monitor` firmware core (file `aq_monitor/aq_monitor.ino`).

The firmware is shallowly embedded:
* machine integers are `Nat`/`Int` with explicit `% 2^w` wherever the C type
  can wrap (`rawVocSum : uint16_t`, the `pm*Sum : uint32_t`, the `uint16_t`
  narrowing casts of the computed averages);
* `float` arithmetic is modelled exactly over `ℚ`;
* the serial byte stream of the PMS7003 sensor is a `List ℕ` of bytes, and
  `readPMSFrame` consumes a prefix of it, returning the remaining stream;
* bus/sensor outcomes that the firmware only observes (I²C transaction
  success, CRC-validated response bytes) arrive as `Option`-valued tick
  inputs; the uninitialised stack locals `r` and `voc` of `loop` are
  explicit `rGarbage`/`vocGarbage` inputs;
* the external library object `voc_algorithm` (class `VOCGasIndexAlgorithm`,
  not part of this repository) is modelled by its observable interaction:
  the state is the chronological list of raw values fed to `process`, and
  the index returned by a call is given by an arbitrary function `alg` of
  that list and the new raw value, universally quantified in every theorem.
-/

/-! ### CRC-8 (lines 71-80) and its bit-serial reference -/

/-- One iteration of the inner loop of `crc8` (line 76):
`crc = (crc & 0x80) ? (crc << 1) ^ 0x31 : (crc << 1)` on a `uint8_t`. -/
def crc8Round (c : ℕ) : ℕ :=
  if 128 ≤ c then ((2 * c) ^^^ 0x31) % 256 else (2 * c) % 256

/-- The body of the outer loop of `crc8` for one data byte (lines 74-77):
`crc ^= data[i]` followed by eight shift rounds. -/
def crc8Update (c b : ℕ) : ℕ := crc8Round^[8] ((c ^^^ b) % 256)

/-- `crc8(data, len)` (lines 71-80): polynomial 0x31, initial value 0xFF,
byte-at-a-time MSB-first, no final XOR. -/
def crc8 (data : List ℕ) : ℕ := data.foldl crc8Update 0xFF

/-- Reference bit-serial step of a CRC-8 LFSR, written from the spec words
"polynomial 0x31, initial value 0xFF, MSB-first, no final XOR": the feedback
bit is the register MSB xored with the incoming message bit; the register is
shifted left and, when the feedback bit is set, reduced by the polynomial. -/
def crcBitStep (s : ℕ) (bit : Bool) : ℕ :=
  let s2 := (2 * s) % 256
  if s.testBit 7 != bit then s2 ^^^ 0x31 else s2

/-- The `k` bits of `m` in MSB-first order: positions `k-1, …, 0`. -/
def natBitsMSB (k m : ℕ) : List Bool := (List.range k).reverse.map m.testBit

/-- Reference CRC-8: each byte contributes its eight bits MSB-first to the
bit-serial register, which starts at 0xFF, and the final register value is
the checksum (no final XOR). -/
def crc8Ref (data : List ℕ) : ℕ :=
  data.foldl (fun s b => (natBitsMSB 8 b).foldl crcBitStep s) 0xFF

/-! ### SHT31 temperature/humidity reader (lines 84-111) -/

/-- `struct SHT31Reading` (lines 65-68); `float` fields modelled over `ℚ`. -/
structure SHT31Reading where
  temperatureF : ℚ
  humidityRH : ℚ
deriving DecidableEq, Repr

/-- Steps 3-4 of `readSHT31` (lines 99-110): CRC-check the 6 response bytes
and convert via the datasheet equations.  `none` models `return false`.  The
bus-transaction failures at lines 89 and 94 are modelled by the caller
handing the tick a `none` reading (`TickInput.sht`). -/
def readSHT31Decode (raw : List ℕ) : Option SHT31Reading :=
  if crc8 [raw.getD 0 0, raw.getD 1 0] ≠ raw.getD 2 0 then none
  else if crc8 [raw.getD 3 0, raw.getD 4 0] ≠ raw.getD 5 0 then none
  else
    let rawT : ℕ := raw.getD 0 0 * 256 + raw.getD 1 0
    let rawRH : ℕ := raw.getD 3 0 * 256 + raw.getD 4 0
    let tempC : ℚ := -45 + 175 * (rawT : ℚ) / 65535
    some { temperatureF := tempC * 9 / 5 + 32
           humidityRH := 100 * (rawRH : ℚ) / 65535 }

/-! ### SGP40 compensation-tick conversions (lines 158-167) -/

/-- The C cast `uint16_t(x)` applied to the nonnegative rounded values of the
tick conversions: truncation toward zero. -/
def floatToU16 (q : ℚ) : ℕ := (⌊q⌋).toNat

/-- `humToTicks` (lines 158-162): clamp to 0…100 %, rescale to 0…65535. -/
def humToTicks (rh : ℚ) : ℕ :=
  let rh1 := if rh < 0 then 0 else rh
  let rh2 := if rh1 > 100 then 100 else rh1
  floatToU16 (rh2 * 65535 / 100 + 1/2)

/-- `tempToTicks` (lines 163-167): clamp to −45…130 °C, rescale to 0…65535. -/
def tempToTicks (tc : ℚ) : ℕ :=
  let tc1 := if tc < -45 then -45 else tc
  let tc2 := if tc1 > 130 then 130 else tc1
  floatToU16 ((tc2 + 45) * 65535 / 175 + 1/2)

/-- The 8-byte command frame built by `readSGP40` (lines 170-181) from the
temperature/humidity reading it was handed: command bytes, humidity word plus
CRC, temperature word (converted back from Fahrenheit) plus CRC. -/
def sgp40CommandFrame (env : SHT31Reading) : List ℕ :=
  let h := humToTicks env.humidityRH
  let t := tempToTicks ((env.temperatureF - 32) * 5 / 9)
  [0x26, 0x0F, h / 256, h % 256, crc8 [h / 256, h % 256],
   t / 256, t % 256, crc8 [t / 256, t % 256]]

/-! ### PMS7003 particulate frame decoder (lines 114-149) -/

/-- `struct PMSData` (lines 58-62): the three atmospheric readings. -/
structure PMSData where
  pm1_0 : ℕ
  pm2_5 : ℕ
  pm10 : ℕ
deriving DecidableEq, Repr

/-- The header-scan loop of `readPMSFrame` (lines 116-126): while at least
two bytes are buffered, consume one byte at a time until a byte equal to
0x42 is immediately followed by 0x4D; consume both header bytes and report
success, else leave the remaining (fewer than two) bytes in place. -/
def pmsFindHeader : List ℕ → Bool × List ℕ
  | [] => (false, [])
  | [b] => (false, [b])
  | b1 :: b2 :: rest =>
    if b1 = 0x42 ∧ b2 = 0x4D then (true, rest)
    else pmsFindHeader (b2 :: rest)

/-- Validation and extraction on the 30 bytes that follow the header
(lines 130-148): the declared length (bytes 0-1, big-endian) must be 28; the
16-bit sum of the two header bytes and bytes 0-27 must equal the trailing
big-endian checksum (bytes 28-29); on success the atmospheric PM1.0, PM2.5
and PM10 words are taken from offsets 8-13.  The checksum accumulator is a
`uint16_t`, hence the `% 65536`. -/
def parsePMSBuffer (buffer : List ℕ) : Option PMSData :=
  let frameLen := buffer.getD 0 0 * 256 + buffer.getD 1 0
  if frameLen ≠ 28 then none
  else
    let sum := (0x42 + 0x4D + ((List.range 28).map (fun i => buffer.getD i 0)).sum) % 65536
    let reported := buffer.getD 28 0 * 256 + buffer.getD 29 0
    if sum ≠ reported then none
    else
      some { pm1_0 := buffer.getD 8 0 * 256 + buffer.getD 9 0
             pm2_5 := buffer.getD 10 0 * 256 + buffer.getD 11 0
             pm10 := buffer.getD 12 0 * 256 + buffer.getD 13 0 }

/-- `readPMSFrame` (lines 114-149) over the buffered serial stream: scan for
the header, then — exactly as the code does — test whether 30 further bytes
are available (`FRAME_LEN_BYTES - 2`); if not, return `false` (`none`) with
the stream as the scan left it; otherwise consume 30 bytes and validate.
Returns the result together with the stream that remains buffered. -/
def readPMSFrame (stream : List ℕ) : Option PMSData × List ℕ :=
  let scanned := pmsFindHeader stream
  let rest := scanned.2
  if rest.length < 30 then (none, rest)
  else (parsePMSBuffer (rest.take 30), rest.drop 30)

/-! ### Scheduler state and the short tick (lines 41-55, 249-283) -/

/-- The free-standing accumulator globals (lines 44-55) plus the state of the
session-long `voc_algorithm` object, modelled by the chronological list
`vocTrace` of raw values fed to `process`, and an instrumentation log
`sgpCompLog` recording the compensation reading handed to each `readSGP40`
call.  `rawVocSum` is a `uint16_t` and the `pm*Sum` are `uint32_t`, so their
updates wrap; `tempSum`/`humiditySum` are `float`, modelled over `ℚ`. -/
structure MonitorState where
  tempSum : ℚ
  humiditySum : ℚ
  vocIndexSum : ℤ
  rawVocSum : ℕ
  pm1_0Sum : ℕ
  pm2_5Sum : ℕ
  pm10Sum : ℕ
  sampleCount : ℕ
  vocTrace : List ℕ
  sgpCompLog : List SHT31Reading
deriving DecidableEq, Repr

/-- The state at power-up: every accumulator zero, no `process` call yet. -/
def initState : MonitorState :=
  { tempSum := 0, humiditySum := 0, vocIndexSum := 0, rawVocSum := 0
    pm1_0Sum := 0, pm2_5Sum := 0, pm10Sum := 0, sampleCount := 0
    vocTrace := [], sgpCompLog := [] }

/-- The sensor outcomes one firing of the 5-second sample timer observes.
`sht`/`sgp`/`pms` are the results of the three reads (`none` = the read
returned `false`); `rGarbage` and `vocGarbage` are the indeterminate values
of the uninitialised stack locals `SHT31Reading r` and `uint16_t voc` that
the code goes on to use when the corresponding read failed. -/
structure TickInput where
  sht : Option SHT31Reading
  sgp : Option ℕ
  pms : Option PMSData
  rGarbage : SHT31Reading
  vocGarbage : ℕ
deriving DecidableEq, Repr

/-- The body of the 5-second sample branch of `loop` (lines 253-283), with
`alg trace v` standing for the value `voc_algorithm.process(v)` returns when
the algorithm has previously been fed `trace`:
* on `readSHT31(r)` success, add the reading to `tempSum`/`humiditySum`;
* call `readSGP40(r, voc)` unconditionally with whatever `r` holds (logged
  in `sgpCompLog`); on success run `process(voc)`, add the index to
  `vocIndexSum` and the raw value to the wrapping `rawVocSum`;
* on `readPMSFrame(d)` success add the three fields to the wrapping PM sums
  — and, inside the debug `Serial.printf` (line 276), call
  `voc_algorithm.process(voc)` a second time with the current `voc`;
* finally `sampleCount++`, unconditionally (line 281). -/
def shortTick (alg : List ℕ → ℕ → ℤ) (t : TickInput) (s : MonitorState) :
    MonitorState :=
  let r := t.sht.getD t.rGarbage
  let s1 :=
    match t.sht with
    | some rd => { s with tempSum := s.tempSum + rd.temperatureF
                          humiditySum := s.humiditySum + rd.humidityRH }
    | none => s
  let s2 := { s1 with sgpCompLog := s1.sgpCompLog ++ [r] }
  let voc := t.sgp.getD t.vocGarbage
  let s3 :=
    match t.sgp with
    | some v =>
      { s2 with vocIndexSum := s2.vocIndexSum + alg s2.vocTrace v
                vocTrace := s2.vocTrace ++ [v]
                rawVocSum := (s2.rawVocSum + v) % 65536 }
    | none => s2
  let s4 :=
    match t.pms with
    | some d =>
      { s3 with vocTrace := s3.vocTrace ++ [voc]
                pm1_0Sum := (s3.pm1_0Sum + d.pm1_0) % 4294967296
                pm2_5Sum := (s3.pm2_5Sum + d.pm2_5) % 4294967296
                pm10Sum := (s3.pm10Sum + d.pm10) % 4294967296 }
    | none => s3
  { s4 with sampleCount := s4.sampleCount + 1 }

/-- A sequence of short ticks, oldest first. -/
def runTicks (alg : List ℕ → ℕ → ℤ) (ticks : List TickInput)
    (s : MonitorState) : MonitorState :=
  ticks.foldl (fun st t => shortTick alg t st) s

/-! ### The long tick: averages, transmission, reset (lines 215-247, 286-321) -/

/-- The JSON payload fields of `sendDataToCloudflare` (lines 224-231),
computed at lines 288-294.  The integer averages use C division semantics:
`avgVocIndex` is `int32_t` division (truncation toward zero, `Int.tdiv`);
`avgRawVoc` and the PM averages are nonnegative integer division followed by
the narrowing assignment to `uint16_t` (`% 65536`). -/
structure Aggregate where
  temperature : ℚ
  humidity : ℚ
  vocIndex : ℤ
  rawVoc : ℕ
  pm1_0 : ℕ
  pm2_5 : ℕ
  pm10 : ℕ
  sampleCount : ℕ
deriving DecidableEq, Repr

/-- The averages computed at lines 288-294 from the current accumulators. -/
def computeAggregate (s : MonitorState) : Aggregate :=
  { temperature := s.tempSum / (s.sampleCount : ℚ)
    humidity := s.humiditySum / (s.sampleCount : ℚ)
    vocIndex := Int.tdiv s.vocIndexSum (s.sampleCount : ℤ)
    rawVoc := (s.rawVocSum / s.sampleCount) % 65536
    pm1_0 := (s.pm1_0Sum / s.sampleCount) % 65536
    pm2_5 := (s.pm2_5Sum / s.sampleCount) % 65536
    pm10 := (s.pm10Sum / s.sampleCount) % 65536
    sampleCount := s.sampleCount }

/-- The observable outcome of `sendDataToCloudflare` (lines 215-247): the
function only builds the payload from its by-value arguments, performs the
POST when WiFi is connected, and logs; it touches no accumulator global, so
its embedding is a pure function of the network environment and the payload
returning only the logged outcome. -/
inductive SendOutcome where
  | noWifi : SendOutcome
  | postError (code : ℤ) : SendOutcome
  | posted (code : ℤ) : SendOutcome
deriving DecidableEq, Repr

/-- `sendDataToCloudflare` (lines 215-247): fail fast when the link is
absent; otherwise one POST whose response code decides the logged outcome. -/
def sendDataToCloudflare (wifiConnected : Bool) (httpResponseCode : ℤ)
    (_a : Aggregate) : SendOutcome :=
  if wifiConnected then
    if 0 < httpResponseCode then .posted httpResponseCode
    else .postError httpResponseCode
  else .noWifi

/-- The state transformation of the 3-minute average branch of `loop`
(lines 286-321): when `sampleCount > 0`, emit the aggregate and zero every
sum and the counter (lines 309-317); otherwise do nothing. -/
def longTick (s : MonitorState) : Option Aggregate × MonitorState :=
  if 0 < s.sampleCount then
    (some (computeAggregate s),
     { s with tempSum := 0, humiditySum := 0, vocIndexSum := 0, rawVocSum := 0
              pm1_0Sum := 0, pm2_5Sum := 0, pm10Sum := 0, sampleCount := 0 })
  else (none, s)

/-- The 3-minute branch including the transmission: the aggregate, when one
is due, is handed to `sendDataToCloudflare` under the given network
environment, and the accumulators are reset exactly as in `longTick`. -/
def longTickWithSend (wifiConnected : Bool) (httpResponseCode : ℤ)
    (s : MonitorState) : Option SendOutcome × MonitorState :=
  match longTick s with
  | (some a, s2) => (some (sendDataToCloudflare wifiConnected httpResponseCode a), s2)
  | (none, s2) => (none, s2)

/-! ### Per-field behaviour of one short tick -/

/-- The shared counter increments on every tick, whatever succeeded. -/
theorem shortTick_sampleCount (alg : List ℕ → ℕ → ℤ) (t : TickInput)
    (s : MonitorState) :
    (shortTick alg t s).sampleCount = s.sampleCount + 1 := by
  rcases t with ⟨sht, sgp, pms, rg, vg⟩
  cases sht <;> cases sgp <;> cases pms <;> simp [shortTick]

/-- The temperature sum gains exactly the successful reading, if any. -/
theorem shortTick_tempSum (alg : List ℕ → ℕ → ℤ) (t : TickInput)
    (s : MonitorState) :
    (shortTick alg t s).tempSum =
      s.tempSum + ((t.sht.map SHT31Reading.temperatureF).getD 0) := by
  rcases t with ⟨sht, sgp, pms, rg, vg⟩
  cases sht <;> cases sgp <;> cases pms <;> simp [shortTick]

/-- The humidity sum gains exactly the successful reading, if any. -/
theorem shortTick_humiditySum (alg : List ℕ → ℕ → ℤ) (t : TickInput)
    (s : MonitorState) :
    (shortTick alg t s).humiditySum =
      s.humiditySum + ((t.sht.map SHT31Reading.humidityRH).getD 0) := by
  rcases t with ⟨sht, sgp, pms, rg, vg⟩
  cases sht <;> cases sgp <;> cases pms <;> simp [shortTick]

/-- The 16-bit raw-VOC sum wraps in the successful raw reading, if any. -/
theorem shortTick_rawVocSum (alg : List ℕ → ℕ → ℤ) (t : TickInput)
    (s : MonitorState) :
    (shortTick alg t s).rawVocSum =
      match t.sgp with
      | some v => (s.rawVocSum + v) % 65536
      | none => s.rawVocSum := by
  rcases t with ⟨sht, sgp, pms, rg, vg⟩
  cases sht <;> cases sgp <;> cases pms <;> simp [shortTick]

/-! ### Behaviour of a window of short ticks -/

/-- Unfolding lemma: one tick then the rest. -/
theorem runTicks_cons (alg : List ℕ → ℕ → ℤ) (t : TickInput)
    (ts : List TickInput) (s : MonitorState) :
    runTicks alg (t :: ts) s = runTicks alg ts (shortTick alg t s) := rfl

/-- The empty window changes nothing. -/
theorem runTicks_nil (alg : List ℕ → ℕ → ℤ) (s : MonitorState) :
    runTicks alg [] s = s := rfl

/-- The shared sample counter counts ticks, not successes. -/
theorem runTicks_sampleCount (alg : List ℕ → ℕ → ℤ) :
    ∀ (ticks : List TickInput) (s : MonitorState),
      (runTicks alg ticks s).sampleCount = s.sampleCount + ticks.length := by
  intro ticks
  induction ticks with
  | nil => intro s; simp [runTicks_nil]
  | cons t ts ih =>
    intro s
    rw [runTicks_cons, ih, shortTick_sampleCount]
    simp [List.length_cons]
    omega

/-- The temperature sum accumulates exactly the successful readings. -/
theorem runTicks_tempSum (alg : List ℕ → ℕ → ℤ) :
    ∀ (ticks : List TickInput) (s : MonitorState),
      (runTicks alg ticks s).tempSum =
        s.tempSum +
          (((ticks.filterMap TickInput.sht).map SHT31Reading.temperatureF).sum) := by
  intro ticks
  induction ticks with
  | nil => intro s; simp [runTicks_nil]
  | cons t ts ih =>
    intro s
    rw [runTicks_cons, ih, shortTick_tempSum]
    rcases h : t.sht with _ | rd <;> simp [List.filterMap_cons, h, add_assoc]

/-- The humidity sum accumulates exactly the successful readings. -/
theorem runTicks_humiditySum (alg : List ℕ → ℕ → ℤ) :
    ∀ (ticks : List TickInput) (s : MonitorState),
      (runTicks alg ticks s).humiditySum =
        s.humiditySum +
          (((ticks.filterMap TickInput.sht).map SHT31Reading.humidityRH).sum) := by
  intro ticks
  induction ticks with
  | nil => intro s; simp [runTicks_nil]
  | cons t ts ih =>
    intro s
    rw [runTicks_cons, ih, shortTick_humiditySum]
    rcases h : t.sht with _ | rd <;> simp [List.filterMap_cons, h, add_assoc]

/-- The 16-bit raw-VOC accumulator holds the wrapped sum of the successful
raw readings of the window. -/
theorem runTicks_rawVocSum (alg : List ℕ → ℕ → ℤ) :
    ∀ (ticks : List TickInput) (s : MonitorState), s.rawVocSum < 65536 →
      (runTicks alg ticks s).rawVocSum =
        (s.rawVocSum + (ticks.filterMap TickInput.sgp).sum) % 65536 := by
  intro ticks
  induction ticks with
  | nil =>
    intro s hs
    simp [runTicks_nil, Nat.mod_eq_of_lt hs]
  | cons t ts ih =>
    intro s hs
    rw [runTicks_cons]
    have hstep := shortTick_rawVocSum alg t s
    rcases h : t.sgp with _ | v
    · rw [h] at hstep
      rw [ih (shortTick alg t s) (by rw [hstep]; exact hs), hstep]
      simp [List.filterMap_cons, h]
    · rw [h] at hstep
      rw [ih (shortTick alg t s) (by rw [hstep]; exact Nat.mod_lt _ (by norm_num)),
        hstep]
      simp only [List.filterMap_cons, h, List.sum_cons, Nat.mod_add_mod]
      congr 1
      omega

/-- The PM1.0 sum (`uint32_t`) wraps in the successful frame field, if any. -/
theorem shortTick_pm1_0Sum (alg : List ℕ → ℕ → ℤ) (t : TickInput)
    (s : MonitorState) :
    (shortTick alg t s).pm1_0Sum =
      match t.pms with
      | some d => (s.pm1_0Sum + d.pm1_0) % 4294967296
      | none => s.pm1_0Sum := by
  rcases t with ⟨sht, sgp, pms, rg, vg⟩
  cases sht <;> cases sgp <;> cases pms <;> simp [shortTick]

/-- The PM2.5 sum (`uint32_t`) wraps in the successful frame field, if any. -/
theorem shortTick_pm2_5Sum (alg : List ℕ → ℕ → ℤ) (t : TickInput)
    (s : MonitorState) :
    (shortTick alg t s).pm2_5Sum =
      match t.pms with
      | some d => (s.pm2_5Sum + d.pm2_5) % 4294967296
      | none => s.pm2_5Sum := by
  rcases t with ⟨sht, sgp, pms, rg, vg⟩
  cases sht <;> cases sgp <;> cases pms <;> simp [shortTick]

/-- The PM10 sum (`uint32_t`) wraps in the successful frame field, if any. -/
theorem shortTick_pm10Sum (alg : List ℕ → ℕ → ℤ) (t : TickInput)
    (s : MonitorState) :
    (shortTick alg t s).pm10Sum =
      match t.pms with
      | some d => (s.pm10Sum + d.pm10) % 4294967296
      | none => s.pm10Sum := by
  rcases t with ⟨sht, sgp, pms, rg, vg⟩
  cases sht <;> cases sgp <;> cases pms <;> simp [shortTick]

/-- Every tick calls `readSGP40` exactly once, with whatever the local `r`
holds: the just-obtained reading on `readSHT31` success, the uninitialised
stack value otherwise. -/
theorem shortTick_sgpCompLog (alg : List ℕ → ℕ → ℤ) (t : TickInput)
    (s : MonitorState) :
    (shortTick alg t s).sgpCompLog =
      s.sgpCompLog ++ [t.sht.getD t.rGarbage] := by
  rcases t with ⟨sht, sgp, pms, rg, vg⟩
  cases sht <;> cases sgp <;> cases pms <;> simp [shortTick]

/-- The raw values fed to `voc_algorithm.process` during one tick: one call
from the gas-read branch (line 263) and one from the debug print in the
particulate branch (line 276), the latter using the possibly-uninitialised
local `voc`. -/
def tickVocCalls (t : TickInput) : List ℕ :=
  (match t.sgp with | some v => [v] | none => []) ++
    (match t.pms with
     | some _ => [t.sgp.getD t.vocGarbage]
     | none => [])

/-- What one tick appends to the `process` input trace. -/
theorem shortTick_vocTrace (alg : List ℕ → ℕ → ℤ) (t : TickInput)
    (s : MonitorState) :
    (shortTick alg t s).vocTrace = s.vocTrace ++ tickVocCalls t := by
  rcases t with ⟨sht, sgp, pms, rg, vg⟩
  cases sht <;> cases sgp <;> cases pms <;> simp [shortTick, tickVocCalls]

/-- Only the first `process` result of a tick is accumulated. -/
theorem shortTick_vocIndexSum (alg : List ℕ → ℕ → ℤ) (t : TickInput)
    (s : MonitorState) :
    (shortTick alg t s).vocIndexSum =
      s.vocIndexSum +
        match t.sgp with
        | some v => alg s.vocTrace v
        | none => 0 := by
  rcases t with ⟨sht, sgp, pms, rg, vg⟩
  cases sht <;> cases sgp <;> cases pms <;> simp [shortTick]

/-- The PM1.0 accumulator over a window: wrapped sum of the decoded fields. -/
theorem runTicks_pm1_0Sum (alg : List ℕ → ℕ → ℤ) :
    ∀ (ticks : List TickInput) (s : MonitorState), s.pm1_0Sum < 4294967296 →
      (runTicks alg ticks s).pm1_0Sum =
        (s.pm1_0Sum + ((ticks.filterMap TickInput.pms).map PMSData.pm1_0).sum) %
          4294967296 := by
  intro ticks
  induction ticks with
  | nil =>
    intro s hs
    simp [runTicks_nil, Nat.mod_eq_of_lt hs]
  | cons t ts ih =>
    intro s hs
    rw [runTicks_cons]
    have hstep := shortTick_pm1_0Sum alg t s
    rcases h : t.pms with _ | d
    · rw [h] at hstep
      rw [ih (shortTick alg t s) (by rw [hstep]; exact hs), hstep]
      simp [List.filterMap_cons, h]
    · rw [h] at hstep
      rw [ih (shortTick alg t s) (by rw [hstep]; exact Nat.mod_lt _ (by norm_num)),
        hstep]
      simp only [List.filterMap_cons, h, List.map_cons, List.sum_cons, Nat.mod_add_mod]
      congr 1
      omega

/-- The PM2.5 accumulator over a window: wrapped sum of the decoded fields. -/
theorem runTicks_pm2_5Sum (alg : List ℕ → ℕ → ℤ) :
    ∀ (ticks : List TickInput) (s : MonitorState), s.pm2_5Sum < 4294967296 →
      (runTicks alg ticks s).pm2_5Sum =
        (s.pm2_5Sum + ((ticks.filterMap TickInput.pms).map PMSData.pm2_5).sum) %
          4294967296 := by
  intro ticks
  induction ticks with
  | nil =>
    intro s hs
    simp [runTicks_nil, Nat.mod_eq_of_lt hs]
  | cons t ts ih =>
    intro s hs
    rw [runTicks_cons]
    have hstep := shortTick_pm2_5Sum alg t s
    rcases h : t.pms with _ | d
    · rw [h] at hstep
      rw [ih (shortTick alg t s) (by rw [hstep]; exact hs), hstep]
      simp [List.filterMap_cons, h]
    · rw [h] at hstep
      rw [ih (shortTick alg t s) (by rw [hstep]; exact Nat.mod_lt _ (by norm_num)),
        hstep]
      simp only [List.filterMap_cons, h, List.map_cons, List.sum_cons, Nat.mod_add_mod]
      congr 1
      omega

/-- The PM10 accumulator over a window: wrapped sum of the decoded fields. -/
theorem runTicks_pm10Sum (alg : List ℕ → ℕ → ℤ) :
    ∀ (ticks : List TickInput) (s : MonitorState), s.pm10Sum < 4294967296 →
      (runTicks alg ticks s).pm10Sum =
        (s.pm10Sum + ((ticks.filterMap TickInput.pms).map PMSData.pm10).sum) %
          4294967296 := by
  intro ticks
  induction ticks with
  | nil =>
    intro s hs
    simp [runTicks_nil, Nat.mod_eq_of_lt hs]
  | cons t ts ih =>
    intro s hs
    rw [runTicks_cons]
    have hstep := shortTick_pm10Sum alg t s
    rcases h : t.pms with _ | d
    · rw [h] at hstep
      rw [ih (shortTick alg t s) (by rw [hstep]; exact hs), hstep]
      simp [List.filterMap_cons, h]
    · rw [h] at hstep
      rw [ih (shortTick alg t s) (by rw [hstep]; exact Nat.mod_lt _ (by norm_num)),
        hstep]
      simp only [List.filterMap_cons, h, List.map_cons, List.sum_cons, Nat.mod_add_mod]
      congr 1
      omega

/-- The compensation log over a window: one `readSGP40` call per tick, in
order, each with `r` as the code leaves it. -/
theorem runTicks_sgpCompLog (alg : List ℕ → ℕ → ℤ) :
    ∀ (ticks : List TickInput) (s : MonitorState),
      (runTicks alg ticks s).sgpCompLog =
        s.sgpCompLog ++ ticks.map (fun t => t.sht.getD t.rGarbage) := by
  intro ticks
  induction ticks with
  | nil => intro s; simp [runTicks_nil]
  | cons t ts ih =>
    intro s
    rw [runTicks_cons, ih, shortTick_sgpCompLog]
    simp

/-- The `process` input trace over a window: each tick appends its calls. -/
theorem runTicks_vocTrace (alg : List ℕ → ℕ → ℤ) :
    ∀ (ticks : List TickInput) (s : MonitorState),
      (runTicks alg ticks s).vocTrace =
        s.vocTrace ++ (ticks.map tickVocCalls).flatten := by
  intro ticks
  induction ticks with
  | nil => intro s; simp [runTicks_nil]
  | cons t ts ih =>
    intro s
    rw [runTicks_cons, ih, shortTick_vocTrace]
    simp

/-! ### Claim C9: clamping of the compensation-tick conversions -/

/-- C9.  The tick conversions clamp to the nearest domain bound rather than
rejecting: humidity ticks for RH < 0 equal the ticks for RH = 0, ticks for
RH > 100 equal the ticks for RH = 100, and temperature ticks below −45 °C or
above 130 °C equal the ticks at −45 °C and 130 °C respectively. -/
theorem spec_C9_clamping :
    (∀ rh : ℚ, rh < 0 → humToTicks rh = humToTicks 0) ∧
    (∀ rh : ℚ, 100 < rh → humToTicks rh = humToTicks 100) ∧
    (∀ tc : ℚ, tc < -45 → tempToTicks tc = tempToTicks (-45)) ∧
    (∀ tc : ℚ, 130 < tc → tempToTicks tc = tempToTicks 130) := by
  refine ⟨fun rh h => ?_, fun rh h => ?_, fun tc h => ?_, fun tc h => ?_⟩
  · simp only [humToTicks]
    rw [if_pos h]
    norm_num
  · simp only [humToTicks]
    rw [if_neg (show ¬rh < 0 by linarith), if_pos (show rh > 100 from h)]
    norm_num
  · simp only [tempToTicks]
    rw [if_pos h]
    norm_num
  · simp only [tempToTicks]
    rw [if_neg (show ¬tc < -45 by linarith), if_pos (show tc > 130 from h)]
    norm_num

/-- Witness for C9 at the concrete out-of-domain inputs −1 %, 101 %,
−46 °C and 131 °C. -/
theorem spec_C9_clamping_witness :
    humToTicks (-1) = humToTicks 0 ∧ humToTicks 101 = humToTicks 100 ∧
    tempToTicks (-46) = tempToTicks (-45) ∧ tempToTicks 131 = tempToTicks 130 :=
  ⟨spec_C9_clamping.1 (-1) (by norm_num),
   spec_C9_clamping.2.1 101 (by norm_num),
   spec_C9_clamping.2.2.1 (-46) (by norm_num),
   spec_C9_clamping.2.2.2 131 (by norm_num)⟩

/-! ### Claim C10: a failed transmission does not disturb the window reset -/

/-- C10.  The transmission outcome (link absent, POST rejected, or success)
has no effect on the device state: the post-state of the long tick is the
same under any network environment and equals the `longTick` reset state;
when the tick fires (`sampleCount > 0`) the payload handed to
`sendDataToCloudflare` is computed from the pre-tick accumulators, and every
sum and the counter are zero afterwards regardless of the send outcome,
while the session-long `process` trace is untouched. -/
theorem spec_C10_failedSendFrame (s : MonitorState) (w1 w2 : Bool)
    (c1 c2 : ℤ) :
    (longTickWithSend w1 c1 s).2 = (longTickWithSend w2 c2 s).2 ∧
    (longTickWithSend w1 c1 s).2 = (longTick s).2 ∧
    (0 < s.sampleCount →
      (longTickWithSend w1 c1 s).1 =
        some (sendDataToCloudflare w1 c1 (computeAggregate s)) ∧
      (longTickWithSend w1 c1 s).2.tempSum = 0 ∧
      (longTickWithSend w1 c1 s).2.humiditySum = 0 ∧
      (longTickWithSend w1 c1 s).2.vocIndexSum = 0 ∧
      (longTickWithSend w1 c1 s).2.rawVocSum = 0 ∧
      (longTickWithSend w1 c1 s).2.pm1_0Sum = 0 ∧
      (longTickWithSend w1 c1 s).2.pm2_5Sum = 0 ∧
      (longTickWithSend w1 c1 s).2.pm10Sum = 0 ∧
      (longTickWithSend w1 c1 s).2.sampleCount = 0 ∧
      (longTickWithSend w1 c1 s).2.vocTrace = s.vocTrace) := by
  by_cases h : 0 < s.sampleCount
  · simp [longTickWithSend, longTick, h]
  · simp [longTickWithSend, longTick, h]

/-- A concrete pre-tick state with nonzero accumulators. -/
def stateC10 : MonitorState :=
  { tempSum := 3, humiditySum := 4, vocIndexSum := 5, rawVocSum := 6
    pm1_0Sum := 7, pm2_5Sum := 8, pm10Sum := 9, sampleCount := 2
    vocTrace := [100, 100], sgpCompLog := [] }

/-- Witness for C10: a failed send (link absent) on a state holding two
samples still yields the zeroed accumulators, identical to the post-state of
a successful send. -/
theorem spec_C10_failedSendFrame_witness :
    0 < stateC10.sampleCount ∧
    (longTickWithSend false 0 stateC10).2 = (longTickWithSend true 200 stateC10).2 ∧
    (longTickWithSend false 0 stateC10).1 =
      some (sendDataToCloudflare false 0 (computeAggregate stateC10)) ∧
    (longTickWithSend false 0 stateC10).2.tempSum = 0 ∧
    (longTickWithSend false 0 stateC10).2.sampleCount = 0 :=
  have h := spec_C10_failedSendFrame stateC10 false true 0 200
  have hpos : 0 < stateC10.sampleCount := by norm_num [stateC10]
  ⟨hpos, h.1, (h.2.2 hpos).1, (h.2.2 hpos).2.1, (h.2.2 hpos).2.2.2.2.2.2.2.2.1⟩

/-! ### Claim C1: what the shared sample counter actually counts -/

/-- A tick on which only `readSHT31` succeeds, reading 70.0 °F / 50 % RH. -/
def tickC1good : TickInput :=
  { sht := some { temperatureF := 70, humidityRH := 50 }
    sgp := none, pms := none
    rGarbage := { temperatureF := 0, humidityRH := 0 }, vocGarbage := 0 }

/-- A tick on which every read fails. -/
def tickC1bad : TickInput :=
  { sht := none, sgp := none, pms := none
    rGarbage := { temperatureF := 0, humidityRH := 0 }, vocGarbage := 0 }

/-- The claim's 3-minute scenario: 36 short ticks, temperature constant at
70.0, 12 reads succeed and 24 fail. -/
def scenarioC1 : List TickInput :=
  List.replicate 12 tickC1good ++ List.replicate 24 tickC1bad

/-- The accumulator state after the scenario window (the `process` stub is
irrelevant: no gas read succeeds). -/
def finalC1 : MonitorState := runTicks (fun _ _ => 0) scenarioC1 initState

/-- Counterexample to C1 as stated: in the claim's own scenario the
transmitted aggregate has `sample_count = 36`, not 12, and its temperature
mean is 840/36 = 70/3 ≈ 23.3, not 70.0 — because `sampleCount++` (line 281)
sits outside every success branch and runs on all 36 ticks. -/
theorem spec_C1_sampleCounter_counterexample :
    (longTick finalC1).1 = some (computeAggregate finalC1) ∧
    (computeAggregate finalC1).sampleCount = 36 ∧
    (computeAggregate finalC1).temperature = 70 / 3 ∧
    ¬((computeAggregate finalC1).temperature = 70 ∧
      (computeAggregate finalC1).sampleCount = 12) := by
  have hcount : finalC1.sampleCount = 36 := by
    rw [finalC1, runTicks_sampleCount]
    simp [scenarioC1, initState]
  have htemp : finalC1.tempSum = 840 := by
    rw [finalC1, runTicks_tempSum]
    simp [scenarioC1, initState, tickC1good, tickC1bad, List.sum_replicate]
    norm_num
  have hagg : (computeAggregate finalC1).temperature = 70 / 3 := by
    simp only [computeAggregate, htemp, hcount]
    norm_num
  refine ⟨?_, by simp [computeAggregate, hcount], hagg, ?_⟩
  · simp [longTick, hcount]
  · intro hcontra
    rw [hagg] at hcontra
    have := hcontra.1
    norm_num at this

/-- C1 as amended (forced by the counterexample): the scheduler increments
the shared sample counter on every short tick regardless of which reads
succeeded, while each per-field sum accumulates only that field's successful
readings; hence in the 36-tick scenario with 12 successful constant-70.0
readings the aggregate carries `sample_count = 36` and temperature mean
840/36 = 70/3. -/
theorem spec_C1_sampleCounter_amended :
    (∀ (alg : List ℕ → ℕ → ℤ) (ticks : List TickInput) (s : MonitorState),
      (runTicks alg ticks s).sampleCount = s.sampleCount + ticks.length) ∧
    (∀ (alg : List ℕ → ℕ → ℤ) (ticks : List TickInput) (s : MonitorState),
      (runTicks alg ticks s).tempSum =
        s.tempSum +
          (((ticks.filterMap TickInput.sht).map SHT31Reading.temperatureF).sum)) ∧
    finalC1.sampleCount = 36 ∧
    (longTick finalC1).1 = some (computeAggregate finalC1) ∧
    (computeAggregate finalC1).sampleCount = 36 ∧
    (computeAggregate finalC1).temperature = 70 / 3 := by
  have hcount : finalC1.sampleCount = 36 := by
    rw [finalC1, runTicks_sampleCount]
    simp [scenarioC1, initState]
  have htemp : finalC1.tempSum = 840 := by
    rw [finalC1, runTicks_tempSum]
    simp [scenarioC1, initState, tickC1good, tickC1bad, List.sum_replicate]
    norm_num
  refine ⟨runTicks_sampleCount, runTicks_tempSum, hcount, ?_, ?_, ?_⟩
  · simp [longTick, hcount]
  · simp [computeAggregate, hcount]
  · simp only [computeAggregate, htemp, hcount]
    norm_num

/-! ### Claim C6: the 16-bit raw-VOC accumulator wraps -/

/-- C6.  `rawVocSum` is a `uint16_t`: over any window starting from the
reset state it holds the successful raw readings' sum modulo 2^16, the
transmitted `raw_voc` average is the integer quotient of that wrapped sum by
the tick count, and whenever the window's true raw sum exceeds 65535 the
transmitted average differs from (indeed undershoots) the true arithmetic
mean. -/
theorem spec_C6_rawVocWrap (alg : List ℕ → ℕ → ℤ) (ticks : List TickInput)
    (hne : ticks ≠ []) :
    (runTicks alg ticks initState).rawVocSum =
      (ticks.filterMap TickInput.sgp).sum % 65536 ∧
    (computeAggregate (runTicks alg ticks initState)).rawVoc =
      ((ticks.filterMap TickInput.sgp).sum % 65536) / ticks.length ∧
    (65535 < (ticks.filterMap TickInput.sgp).sum →
      ((computeAggregate (runTicks alg ticks initState)).rawVoc : ℚ) ≠
        ((ticks.filterMap TickInput.sgp).sum : ℚ) / (ticks.length : ℚ)) := by
  have hsum : (runTicks alg ticks initState).rawVocSum =
      (ticks.filterMap TickInput.sgp).sum % 65536 := by
    rw [runTicks_rawVocSum alg ticks initState (by norm_num [initState])]
    simp [initState]
  have hcount : (runTicks alg ticks initState).sampleCount = ticks.length := by
    rw [runTicks_sampleCount]
    simp [initState]
  have havg : (computeAggregate (runTicks alg ticks initState)).rawVoc =
      ((ticks.filterMap TickInput.sgp).sum % 65536) / ticks.length := by
    simp only [computeAggregate, hsum, hcount]
    exact Nat.mod_eq_of_lt
      (lt_of_le_of_lt (Nat.div_le_self _ _) (Nat.mod_lt _ (by norm_num)))
  refine ⟨hsum, havg, fun hbig => ?_⟩
  have hlen : 0 < ticks.length := List.length_pos.mpr hne
  have hlenQ : (0 : ℚ) < (ticks.length : ℚ) := by exact_mod_cast hlen
  have hlt : ((computeAggregate (runTicks alg ticks initState)).rawVoc : ℚ) <
      ((ticks.filterMap TickInput.sgp).sum : ℚ) / (ticks.length : ℚ) := by
    rw [havg]
    calc (((((ticks.filterMap TickInput.sgp).sum % 65536) / ticks.length : ℕ)) : ℚ)
        ≤ (((ticks.filterMap TickInput.sgp).sum % 65536 : ℕ) : ℚ) /
            (ticks.length : ℚ) := Nat.cast_div_le
      _ < ((ticks.filterMap TickInput.sgp).sum : ℚ) / (ticks.length : ℚ) := by
          rw [div_lt_div_iff_of_pos_right hlenQ]
          exact_mod_cast lt_of_lt_of_le (Nat.mod_lt _ (by norm_num))
            (by omega : 65536 ≤ (ticks.filterMap TickInput.sgp).sum)
  exact ne_of_lt hlt

/-- The C6 witness window: two ticks whose gas reads both return 60000. -/
def ticksC6 : List TickInput :=
  List.replicate 2
    { sht := none, sgp := some 60000, pms := none
      rGarbage := { temperatureF := 0, humidityRH := 0 }, vocGarbage := 0 }

/-- Witness for C6: raw sum 120000 wraps to 54464, so the transmitted
average is 27232 instead of the true mean 60000. -/
theorem spec_C6_rawVocWrap_witness :
    ticksC6 ≠ [] ∧
    65535 < (ticksC6.filterMap TickInput.sgp).sum ∧
    (runTicks (fun _ _ => 0) ticksC6 initState).rawVocSum = 54464 ∧
    (computeAggregate (runTicks (fun _ _ => 0) ticksC6 initState)).rawVoc = 27232 ∧
    ((computeAggregate (runTicks (fun _ _ => 0) ticksC6 initState)).rawVoc : ℚ) ≠
      ((ticksC6.filterMap TickInput.sgp).sum : ℚ) / (ticksC6.length : ℚ) := by
  have hne : ticksC6 ≠ [] := by simp [ticksC6]
  have hbig : 65535 < (ticksC6.filterMap TickInput.sgp).sum := by decide
  refine ⟨hne, hbig, by decide, by decide, ?_⟩
  exact (spec_C6_rawVocWrap (fun _ _ => 0) ticksC6 hne).2.2 hbig

/-! ### Claim C4: invocations of the gas-index algorithm -/

/-- A tick on which the gas read (raw 100) and the particulate read both
succeed. -/
def tickC4 : TickInput :=
  { sht := some { temperatureF := 70, humidityRH := 50 }
    sgp := some 100
    pms := some { pm1_0 := 1, pm2_5 := 2, pm10 := 3 }
    rGarbage := { temperatureF := 0, humidityRH := 0 }, vocGarbage := 0 }

/-- A tick on which the gas read fails but a particulate frame arrives; the
local `voc` still holds its indeterminate stack value 777. -/
def tickC4b : TickInput :=
  { sht := none, sgp := none
    pms := some { pm1_0 := 1, pm2_5 := 2, pm10 := 3 }
    rGarbage := { temperatureF := 0, humidityRH := 0 }, vocGarbage := 777 }

/-- C4 fails on the code: the debug `Serial.printf` in the particulate
branch (line 276) calls `voc_algorithm.process(voc)` a second time, so a
tick on which both the gas and particulate reads succeed feeds the same raw
value 100 to the algorithm twice — and a tick with no successful gas read
at all still feeds it the uninitialised `voc` when a frame arrives.  The
general conjunct gives the exact call sequence of any tick. -/
theorem spec_C4_processCalls (alg : List ℕ → ℕ → ℤ) :
    (∀ (t : TickInput) (s : MonitorState),
      (shortTick alg t s).vocTrace = s.vocTrace ++ tickVocCalls t) ∧
    (shortTick alg tickC4 initState).vocTrace = [100, 100] ∧
    (shortTick alg tickC4b initState).vocTrace = [777] := by
  refine ⟨shortTick_vocTrace alg, ?_, ?_⟩
  · rw [shortTick_vocTrace]
    simp [initState, tickC4, tickVocCalls]
  · rw [shortTick_vocTrace]
    simp [initState, tickC4b, tickVocCalls]

/-! ### Claim C5: compensation inputs of the gas read -/

/-- The reading obtained on the C5 success tick. -/
def readingC5 : SHT31Reading := { temperatureF := 72, humidityRH := 41 }

/-- A tick whose temperature/humidity read succeeds with `readingC5`. -/
def tickC5good : TickInput :=
  { sht := some readingC5, sgp := some 100, pms := none
    rGarbage := { temperatureF := 0, humidityRH := 0 }, vocGarbage := 0 }

/-- The indeterminate stack content of the local `r` on a failed tick. -/
def garbageC5 : SHT31Reading := { temperatureF := -1000, humidityRH := 999 }

/-- A tick whose temperature/humidity read fails: `r` keeps `garbageC5`. -/
def tickC5 : TickInput :=
  { sht := none, sgp := some 100, pms := none
    rGarbage := garbageC5, vocGarbage := 0 }

/-- C5 fails on the code: `readSGP40(r, voc)` (line 262) runs on every
tick.  When `readSHT31` succeeded the compensation input is indeed that
tick's just-obtained reading (first two conjuncts), but when it failed the
gas read still runs, handed the uninitialised local `r` (last conjunct) —
not "only … when that tick's temperature/humidity read succeeded". -/
theorem spec_C5_compensationInputs (alg : List ℕ → ℕ → ℤ) :
    (∀ (t : TickInput) (s : MonitorState),
      (shortTick alg t s).sgpCompLog = s.sgpCompLog ++ [t.sht.getD t.rGarbage]) ∧
    (shortTick alg tickC5good initState).sgpCompLog = [readingC5] ∧
    (shortTick alg tickC5 initState).sgpCompLog = [garbageC5] := by
  refine ⟨shortTick_sgpCompLog alg, ?_, ?_⟩
  · rw [shortTick_sgpCompLog]
    simp [initState, tickC5good]
  · rw [shortTick_sgpCompLog]
    simp [initState, tickC5]

/-! ### Claim C3: NoFrameYet and frame preservation in the decoder -/

/-- The 30 bytes of a valid frame body: declared length 28, all-zero
measurement data, checksum 0x42 + 0x4D + 0x1C = 0x00AB. -/
def bodyC3 : List ℕ := [0x00, 0x1C] ++ List.replicate 26 0 ++ [0x00, 0xAB]

/-- C3 fails on the code.  First call: only the header 0x42 0x4D is
buffered; `readPMSFrame` consumes it *before* checking availability and
returns the same `false` used for validation failures.  Second call: the 30
valid body bytes have arrived, but the header is gone, so the scan discards
the body hunting for 0x42 and the frame is lost (one stray byte remains).
Control: the identical frame fed in one piece — even preceded by garbage —
decodes correctly, so the dropped data was a valid frame. -/
theorem spec_C3_frameLoss :
    readPMSFrame [0x42, 0x4D] = (none, []) ∧
    readPMSFrame bodyC3 = (none, [0xAB]) ∧
    readPMSFrame (0x42 :: 0x4D :: bodyC3) =
      (some { pm1_0 := 0, pm2_5 := 0, pm10 := 0 }, []) ∧
    readPMSFrame (99 :: 7 :: 0x42 :: 0x4D :: bodyC3) =
      (some { pm1_0 := 0, pm2_5 := 0, pm10 := 0 }, []) := by
  refine ⟨by decide, by decide, by decide, by decide⟩

/-! ### Claim C7: acceptance condition and field extraction of the decoder -/

/-- `getD` after overwriting the same position. -/
theorem getD_set_self (l : List ℕ) (i : ℕ) (a : ℕ) (h : i < l.length) :
    (l.set i a).getD i 0 = a := by
  simp [List.getElem?_set_self h]

/-- `getD` after overwriting a different position. -/
theorem getD_set_ne (l : List ℕ) (i j : ℕ) (a : ℕ) (h : i ≠ j) :
    (l.set i a).getD j 0 = l.getD j 0 := by
  simp [List.getElem?_set_ne h]

/-- C7.  On the 30 bytes following a consumed header: a frame is accepted
iff the declared big-endian length is 28 and the 16-bit sum of the header
bytes and bytes 0-27 equals the trailing big-endian checksum; an accepted
frame yields exactly the atmospheric PM1.0/PM2.5/PM10 words at offsets
8-13 (not the standard-particle words at offsets 2-7); and mutating either
checksum byte of an accepted frame forces rejection. -/
theorem spec_C7_frameValidation (buffer : List ℕ) (hlen : buffer.length = 30) :
    ((parsePMSBuffer buffer).isSome ↔
      (buffer.getD 0 0 * 256 + buffer.getD 1 0 = 28 ∧
        (0x42 + 0x4D + ((List.range 28).map (fun i => buffer.getD i 0)).sum) % 65536 =
          buffer.getD 28 0 * 256 + buffer.getD 29 0)) ∧
    (∀ d : PMSData, parsePMSBuffer buffer = some d →
      d = { pm1_0 := buffer.getD 8 0 * 256 + buffer.getD 9 0
            pm2_5 := buffer.getD 10 0 * 256 + buffer.getD 11 0
            pm10 := buffer.getD 12 0 * 256 + buffer.getD 13 0 }) ∧
    (∀ (j b2 : ℕ), (j = 28 ∨ j = 29) → b2 ≠ buffer.getD j 0 →
      (parsePMSBuffer buffer).isSome →
      parsePMSBuffer (buffer.set j b2) = none) := by
  refine ⟨?_, ?_, ?_⟩
  · simp only [parsePMSBuffer]
    split_ifs with h1 h2 <;> simp_all
  · intro d hd
    simp only [parsePMSBuffer] at hd
    split_ifs at hd with h1 h2
    exact (Option.some_injective _ hd).symm
  · intro j b2 hj hne hsome
    have hcond : (buffer.getD 0 0 * 256 + buffer.getD 1 0 = 28 ∧
        (0x42 + 0x4D + ((List.range 28).map (fun i => buffer.getD i 0)).sum) % 65536 =
          buffer.getD 28 0 * 256 + buffer.getD 29 0) := by
      simp only [parsePMSBuffer] at hsome
      split_ifs at hsome with h1 h2
      · simp at hsome
      · simp at hsome
      · exact ⟨by omega, by omega⟩
    have hsum : ((List.range 28).map (fun i => (buffer.set j b2).getD i 0)).sum =
        ((List.range 28).map (fun i => buffer.getD i 0)).sum := by
      apply congrArg
      apply List.map_congr_left
      intro i hi
      have hij : j ≠ i := by
        rcases hj with h | h <;> (subst h; simp at hi; omega)
      exact getD_set_ne buffer j i b2 hij
    have hlen2 : (buffer.set j b2).getD 0 0 * 256 + (buffer.set j b2).getD 1 0 = 28 := by
      rw [getD_set_ne buffer j 0 b2 (by omega : j ≠ 0),
        getD_set_ne buffer j 1 b2 (by omega : j ≠ 1)]
      exact hcond.1
    have hrepNe : (0x42 + 0x4D +
        ((List.range 28).map (fun i => (buffer.set j b2).getD i 0)).sum) % 65536 ≠
        (buffer.set j b2).getD 28 0 * 256 + (buffer.set j b2).getD 29 0 := by
      rw [hsum]
      rcases hj with h | h
      · subst h
        rw [getD_set_self buffer 28 b2 (by omega),
          getD_set_ne buffer 28 29 b2 (by omega)]
        rw [hcond.2]
        intro hc
        exact hne (by omega)
      · subst h
        rw [getD_set_ne buffer 29 28 b2 (by omega),
          getD_set_self buffer 29 b2 (by omega)]
        rw [hcond.2]
        intro hc
        exact hne (by omega)
    simp only [parsePMSBuffer]
    rw [if_neg (not_ne_iff.mpr hlen2)]
    rw [if_pos hrepNe]

/-! ### Claim C2: accumulator round-trip over fully successful windows -/

/-- One short tick's worth of known sensor values, all three reads
succeeding. -/
structure FullReading where
  env : SHT31Reading
  voc : ℕ
  pms : PMSData
deriving DecidableEq, Repr

/-- The tick input of a fully successful read (garbage locals unused). -/
def fullTickOf (fr : FullReading) : TickInput :=
  { sht := some fr.env, sgp := some fr.voc, pms := some fr.pms
    rGarbage := { temperatureF := 0, humidityRH := 0 }, vocGarbage := 0 }

/-- The indices `voc_algorithm.process` returns and the loop accumulates on
a fully successful window: each tick issues its accumulated call and then
the debug-print call, so the trace grows by `[v, v]` per tick. -/
def expectedVocIndices (alg : List ℕ → ℕ → ℤ) : List ℕ → List ℕ → List ℤ
  | _, [] => []
  | trace, v :: vs => alg trace v :: expectedVocIndices alg (trace ++ [v, v]) vs

/-- Over a fully successful window the accumulated VOC-index sum is the sum
of the expected indices, and the `process` trace grows by two copies of each
raw value. -/
theorem runTicks_full_vocIndex (alg : List ℕ → ℕ → ℤ) :
    ∀ (frs : List FullReading) (s : MonitorState),
      (runTicks alg (frs.map fullTickOf) s).vocIndexSum =
        s.vocIndexSum +
          (expectedVocIndices alg s.vocTrace (frs.map FullReading.voc)).sum ∧
      (runTicks alg (frs.map fullTickOf) s).vocTrace =
        s.vocTrace ++ (frs.map (fun fr => [fr.voc, fr.voc])).flatten := by
  intro frs
  induction frs with
  | nil => intro s; simp [runTicks_nil, expectedVocIndices]
  | cons fr rest ih =>
    intro s
    rw [List.map_cons, runTicks_cons]
    have hsum := shortTick_vocIndexSum alg (fullTickOf fr) s
    have htr := shortTick_vocTrace alg (fullTickOf fr) s
    rcases ih (shortTick alg (fullTickOf fr) s) with ⟨ih1, ih2⟩
    constructor
    · rw [ih1, hsum, htr]
      simp [expectedVocIndices, tickVocCalls, fullTickOf, add_assoc]
    · rw [ih2, htr]
      simp [tickVocCalls, fullTickOf]

/-- Turns the always-`some` projections of a fully successful window into
plain maps. -/
theorem filterMap_fullTick_sht (frs : List FullReading) :
    (frs.map fullTickOf).filterMap TickInput.sht =
      frs.map FullReading.env := by
  rw [List.filterMap_map]
  exact List.filterMap_eq_map FullReading.env ▸ rfl

/-- The gas projection of a fully successful window. -/
theorem filterMap_fullTick_sgp (frs : List FullReading) :
    (frs.map fullTickOf).filterMap TickInput.sgp =
      frs.map FullReading.voc := by
  rw [List.filterMap_map]
  exact List.filterMap_eq_map FullReading.voc ▸ rfl

/-- The particulate projection of a fully successful window. -/
theorem filterMap_fullTick_pms (frs : List FullReading) :
    (frs.map fullTickOf).filterMap TickInput.pms =
      frs.map FullReading.pms := by
  rw [List.filterMap_map]
  exact List.filterMap_eq_map FullReading.pms ▸ rfl

/-- C2 as amended (forced by the counterexample): over any nonempty window
of N fully successful reads starting from the reset state, the transmitted
temperature and humidity means are the exact arithmetic means of the N
readings, while the integer fields carry the machine-arithmetic quotients —
`voc_index` the truncated quotient of the accumulated index sum, `raw_voc`
the quotient of the 16-bit-wrapped raw sum, and the PM fields the 16-bit
narrowing of the quotient of their 32-bit-wrapped sums — and after the long
tick fires every sum and the counter are exactly zero. -/
theorem spec_C2_accumulatorRoundTrip_amended (alg : List ℕ → ℕ → ℤ)
    (frs : List FullReading) (hne : frs ≠ []) :
    (runTicks alg (frs.map fullTickOf) initState).sampleCount = frs.length ∧
    (longTick (runTicks alg (frs.map fullTickOf) initState)).1 =
      some (computeAggregate (runTicks alg (frs.map fullTickOf) initState)) ∧
    (computeAggregate (runTicks alg (frs.map fullTickOf) initState)).temperature =
      (frs.map (fun fr => fr.env.temperatureF)).sum / (frs.length : ℚ) ∧
    (computeAggregate (runTicks alg (frs.map fullTickOf) initState)).humidity =
      (frs.map (fun fr => fr.env.humidityRH)).sum / (frs.length : ℚ) ∧
    (computeAggregate (runTicks alg (frs.map fullTickOf) initState)).vocIndex =
      Int.tdiv (expectedVocIndices alg [] (frs.map FullReading.voc)).sum
        (frs.length : ℤ) ∧
    (computeAggregate (runTicks alg (frs.map fullTickOf) initState)).rawVoc =
      ((frs.map FullReading.voc).sum % 65536) / frs.length ∧
    (computeAggregate (runTicks alg (frs.map fullTickOf) initState)).pm1_0 =
      (((frs.map (fun fr => fr.pms.pm1_0)).sum % 4294967296) / frs.length) % 65536 ∧
    (computeAggregate (runTicks alg (frs.map fullTickOf) initState)).pm2_5 =
      (((frs.map (fun fr => fr.pms.pm2_5)).sum % 4294967296) / frs.length) % 65536 ∧
    (computeAggregate (runTicks alg (frs.map fullTickOf) initState)).pm10 =
      (((frs.map (fun fr => fr.pms.pm10)).sum % 4294967296) / frs.length) % 65536 ∧
    (computeAggregate (runTicks alg (frs.map fullTickOf) initState)).sampleCount =
      frs.length ∧
    (longTick (runTicks alg (frs.map fullTickOf) initState)).2.tempSum = 0 ∧
    (longTick (runTicks alg (frs.map fullTickOf) initState)).2.humiditySum = 0 ∧
    (longTick (runTicks alg (frs.map fullTickOf) initState)).2.vocIndexSum = 0 ∧
    (longTick (runTicks alg (frs.map fullTickOf) initState)).2.rawVocSum = 0 ∧
    (longTick (runTicks alg (frs.map fullTickOf) initState)).2.pm1_0Sum = 0 ∧
    (longTick (runTicks alg (frs.map fullTickOf) initState)).2.pm2_5Sum = 0 ∧
    (longTick (runTicks alg (frs.map fullTickOf) initState)).2.pm10Sum = 0 ∧
    (longTick (runTicks alg (frs.map fullTickOf) initState)).2.sampleCount = 0 := by
  have hpos : 0 < frs.length := List.length_pos.mpr hne
  have hcount : (runTicks alg (frs.map fullTickOf) initState).sampleCount =
      frs.length := by
    rw [runTicks_sampleCount]
    simp [initState]
  have htemp : (runTicks alg (frs.map fullTickOf) initState).tempSum =
      (frs.map (fun fr => fr.env.temperatureF)).sum := by
    rw [runTicks_tempSum, filterMap_fullTick_sht]
    simp only [initState, List.map_map]
    norm_num
    rfl
  have hhum : (runTicks alg (frs.map fullTickOf) initState).humiditySum =
      (frs.map (fun fr => fr.env.humidityRH)).sum := by
    rw [runTicks_humiditySum, filterMap_fullTick_sht]
    simp only [initState, List.map_map]
    norm_num
    rfl
  have hvoc : (runTicks alg (frs.map fullTickOf) initState).vocIndexSum =
      (expectedVocIndices alg [] (frs.map FullReading.voc)).sum := by
    have h := (runTicks_full_vocIndex alg frs initState).1
    simpa [initState] using h
  have hraw : (runTicks alg (frs.map fullTickOf) initState).rawVocSum =
      (frs.map FullReading.voc).sum % 65536 := by
    rw [runTicks_rawVocSum alg _ initState (by norm_num [initState]),
      filterMap_fullTick_sgp]
    simp [initState]
  have hpm1 : (runTicks alg (frs.map fullTickOf) initState).pm1_0Sum =
      (frs.map (fun fr => fr.pms.pm1_0)).sum % 4294967296 := by
    rw [runTicks_pm1_0Sum alg _ initState (by norm_num [initState]),
      filterMap_fullTick_pms]
    simp only [initState, List.map_map]
    norm_num
    rfl
  have hpm2 : (runTicks alg (frs.map fullTickOf) initState).pm2_5Sum =
      (frs.map (fun fr => fr.pms.pm2_5)).sum % 4294967296 := by
    rw [runTicks_pm2_5Sum alg _ initState (by norm_num [initState]),
      filterMap_fullTick_pms]
    simp only [initState, List.map_map]
    norm_num
    rfl
  have hpm3 : (runTicks alg (frs.map fullTickOf) initState).pm10Sum =
      (frs.map (fun fr => fr.pms.pm10)).sum % 4294967296 := by
    rw [runTicks_pm10Sum alg _ initState (by norm_num [initState]),
      filterMap_fullTick_pms]
    simp only [initState, List.map_map]
    norm_num
    rfl
  refine ⟨hcount, by simp [longTick, hcount, hpos], ?_, ?_, ?_, ?_, ?_, ?_, ?_, ?_,
    ?_, ?_, ?_, ?_, ?_, ?_, ?_, ?_⟩
  · simp only [computeAggregate, htemp, hcount]
  · simp only [computeAggregate, hhum, hcount]
  · simp only [computeAggregate, hvoc, hcount]
  · simp only [computeAggregate, hraw, hcount]
    exact Nat.mod_eq_of_lt
      (lt_of_le_of_lt (Nat.div_le_self _ _) (Nat.mod_lt _ (by norm_num)))
  · simp only [computeAggregate, hpm1, hcount]
  · simp only [computeAggregate, hpm2, hcount]
  · simp only [computeAggregate, hpm3, hcount]
  · simp only [computeAggregate, hcount]
  · simp [longTick, hcount, hpos]
  · simp [longTick, hcount, hpos]
  · simp [longTick, hcount, hpos]
  · simp [longTick, hcount, hpos]
  · simp [longTick, hcount, hpos]
  · simp [longTick, hcount, hpos]
  · simp [longTick, hcount, hpos]
  · simp [longTick, hcount, hpos]

/-- Two fully successful ticks with raw gas value 100 each. -/
def frsC2 : List FullReading :=
  [ { env := { temperatureF := 70, humidityRH := 50 }, voc := 100
      pms := { pm1_0 := 10, pm2_5 := 20, pm10 := 30 } },
    { env := { temperatureF := 70, humidityRH := 50 }, voc := 100
      pms := { pm1_0 := 10, pm2_5 := 20, pm10 := 30 } } ]

/-- An index history on which `process` returns 1 first and 2 afterwards. -/
def algC2 : List ℕ → ℕ → ℤ := fun trace _ => if trace.length = 0 then 1 else 2

/-- Counterexample to C2 as stated: a window of N = 2 fully successful
ticks accumulates the two VOC indices 1 and 2 (sum 3), but the transmitted
`voc_index` mean is the C integer quotient 3 / 2 = 1, not their arithmetic
mean 3/2 — so the computed mean does not equal the arithmetic mean "for
every field". -/
theorem spec_C2_accumulatorRoundTrip_counterexample :
    (runTicks algC2 (frsC2.map fullTickOf) initState).vocIndexSum = 3 ∧
    (runTicks algC2 (frsC2.map fullTickOf) initState).sampleCount = 2 ∧
    (computeAggregate (runTicks algC2 (frsC2.map fullTickOf) initState)).vocIndex = 1 ∧
    ((computeAggregate (runTicks algC2 (frsC2.map fullTickOf) initState)).vocIndex : ℚ) ≠
      (1 + 2 : ℚ) / 2 := by
  refine ⟨by decide, by decide, by decide, ?_⟩
  rw [show (computeAggregate (runTicks algC2 (frsC2.map fullTickOf) initState)).vocIndex = 1
    by decide]
  norm_num

/-- Witness window for the amended C2: two fully successful ticks with raw
gas readings 100 and 200. -/
def frsC2w : List FullReading :=
  [ { env := { temperatureF := 70, humidityRH := 50 }, voc := 100
      pms := { pm1_0 := 10, pm2_5 := 20, pm10 := 30 } },
    { env := { temperatureF := 72, humidityRH := 52 }, voc := 200
      pms := { pm1_0 := 11, pm2_5 := 21, pm10 := 31 } } ]

/-- A constant-index `process` stub for the witness. -/
def algC2w : List ℕ → ℕ → ℤ := fun _ _ => 7

/-- Witness for the amended C2 at the concrete two-tick window: sample
count 2, raw-VOC mean (100+200)/2 = 150, VOC-index mean 7, and the reset
zeroes the counter. -/
theorem spec_C2_accumulatorRoundTrip_amended_witness :
    frsC2w ≠ [] ∧
    (runTicks algC2w (frsC2w.map fullTickOf) initState).sampleCount = frsC2w.length ∧
    (computeAggregate (runTicks algC2w (frsC2w.map fullTickOf) initState)).rawVoc =
      ((frsC2w.map FullReading.voc).sum % 65536) / frsC2w.length ∧
    ((frsC2w.map FullReading.voc).sum % 65536) / frsC2w.length = 150 ∧
    (longTick (runTicks algC2w (frsC2w.map fullTickOf) initState)).2.sampleCount = 0 := by
  have h := spec_C2_accumulatorRoundTrip_amended algC2w frsC2w (by decide)
  exact ⟨by decide, h.1, h.2.2.2.2.2.1, by decide, h.2.2.2.2.2.2.2.2.2.2.2.2.2.2.2.2.2⟩

/-- Witness for C7 at the concrete valid frame body `bodyC3`: it is
accepted, and overwriting its checksum high byte with 1 forces rejection. -/
theorem spec_C7_frameValidation_witness :
    bodyC3.length = 30 ∧
    (1 : ℕ) ≠ bodyC3.getD 28 0 ∧
    (parsePMSBuffer bodyC3).isSome = true ∧
    parsePMSBuffer (bodyC3.set 28 1) = none :=
  ⟨by decide, by decide, by decide,
   (spec_C7_frameValidation bodyC3 (by decide)).2.2 28 1 (Or.inl rfl) (by decide)
     (by decide)⟩

/-! ### Claim C8: crc8 against the bit-serial reference, and CRC protection -/

/-- Remainders modulo 256 distribute over xor. -/
theorem xor_mod_256 (a b : ℕ) : (a ^^^ b) % 256 = a % 256 ^^^ b % 256 := by
  rw [show (256 : ℕ) = 2 ^ 8 by norm_num]
  apply Nat.eq_of_testBit_eq
  intro i
  simp only [Nat.testBit_mod_two_pow, Nat.testBit_xor]
  by_cases hi : i < 8 <;> simp [hi]

/-- Xor below 256 stays below 256. -/
theorem xor_lt_256 {x y : ℕ} (hx : x < 256) (hy : y < 256) : x ^^^ y < 256 := by
  have h8 : (2 : ℕ) ^ 8 = 256 := by norm_num
  have h := Nat.xor_lt_two_pow (h8 ▸ hx) (h8 ▸ hy)
  rwa [h8] at h

/-- Multiplication by a power of two distributes over xor. -/
theorem mul_two_pow_xor (a b t : ℕ) :
    (a ^^^ b) * 2 ^ t = a * 2 ^ t ^^^ b * 2 ^ t := by
  rw [← Nat.shiftLeft_eq, ← Nat.shiftLeft_eq, ← Nat.shiftLeft_eq]
  apply Nat.eq_of_testBit_eq
  intro i
  simp only [Nat.testBit_shiftLeft, Nat.testBit_xor]
  by_cases hi : t ≤ i <;> simp [hi]

/-- Doubling distributes over xor. -/
theorem two_mul_xor (a b : ℕ) : 2 * (a ^^^ b) = 2 * a ^^^ 2 * b := by
  have h := mul_two_pow_xor a b 1
  simpa [pow_one, mul_comm] using h

/-- Below 256, the MSB test `128 ≤ y` is bit 7. -/
theorem le128_iff_testBit7 (y : ℕ) (hy : y < 256) :
    128 ≤ y ↔ y.testBit 7 = true := by
  rw [Nat.testBit_to_div_mod, show (2 : ℕ) ^ 7 = 128 by norm_num]
  simp only [decide_eq_true_eq]
  omega

/-- One shift round always lands below 256. -/
theorem crc8Round_lt (c : ℕ) : crc8Round c < 256 := by
  unfold crc8Round
  split_ifs <;> exact Nat.mod_lt _ (by norm_num)

/-- Iterated shift rounds preserve the byte range. -/
theorem crc8Round_iterate_lt (n : ℕ) :
    ∀ x : ℕ, x < 256 → crc8Round^[n] x < 256 := by
  induction n with
  | zero => intro x hx; simpa using hx
  | succ n ih =>
    intro x hx
    rw [Function.iterate_succ_apply]
    exact ih _ (crc8Round_lt x)

/-- One byte step of `crc8` lands below 256. -/
theorem crc8Update_lt (c b : ℕ) : crc8Update c b < 256 :=
  crc8Round_iterate_lt 8 _ (Nat.mod_lt _ (by norm_num))

/-- The bit-serial step lands below 256. -/
theorem crcBitStep_lt (s : ℕ) (bit : Bool) : crcBitStep s bit < 256 := by
  unfold crcBitStep
  split_ifs
  · exact xor_lt_256 (Nat.mod_lt _ (by norm_num)) (by norm_num)
  · exact Nat.mod_lt _ (by norm_num)

/-- The shift-round condition in testBit form. -/
theorem crc8Round_testBit_form (y : ℕ) (hy : y < 256) :
    crc8Round y =
      if y.testBit 7 = true then (2 * y ^^^ 49) % 256 else 2 * y % 256 := by
  unfold crc8Round
  by_cases h : 128 ≤ y
  · rw [if_pos h, if_pos ((le128_iff_testBit7 y hy).mp h)]
  · rw [if_neg h, if_neg (fun hb => h ((le128_iff_testBit7 y hy).mpr hb))]

/-- Feeding one bit bit-serially equals one shift round with the bit xored
into the register MSB beforehand. -/
theorem crcBitStep_eq_round (s : ℕ) (hs : s < 256) (bit : Bool) :
    crcBitStep s bit = crc8Round (s ^^^ (if bit then 128 else 0)) := by
  cases bit
  · show crcBitStep s false = crc8Round (s ^^^ 0)
    rw [Nat.xor_zero, crc8Round_testBit_form s hs]
    unfold crcBitStep
    cases h7 : s.testBit 7
    · simp [h7]
    · simp [h7, xor_mod_256]
  · show crcBitStep s true = crc8Round (s ^^^ 128)
    have hxlt : s ^^^ 128 < 256 := xor_lt_256 hs (by norm_num)
    have h128 : Nat.testBit 128 7 = true := by decide
    have h7x : (s ^^^ 128).testBit 7 = !(s.testBit 7) := by
      simp [Nat.testBit_xor, h128]
    rw [crc8Round_testBit_form (s ^^^ 128) hxlt, h7x]
    unfold crcBitStep
    cases h7 : s.testBit 7
    · rw [if_pos (by simp [h7]), if_pos (by simp)]
      rw [two_mul_xor, Nat.xor_assoc, Nat.xor_comm (2 * 128) 49, ← Nat.xor_assoc,
        xor_mod_256, xor_mod_256]
      norm_num
    · rw [if_neg (by simp [h7]), if_neg (by simp)]
      rw [two_mul_xor, xor_mod_256]
      norm_num

/-- Xoring bits strictly below the MSB into the register commutes with one
shift round, shifting those bits up by one. -/
theorem crc8Round_xor_low (x mm : ℕ) (hx : x < 256) (hmm : mm < 128) :
    crc8Round (x ^^^ mm) = (crc8Round x ^^^ 2 * mm) % 256 := by
  have hxm : x ^^^ mm < 256 := xor_lt_256 hx (by omega)
  have h7mm : mm.testBit 7 = false :=
    Nat.testBit_eq_false_of_lt (by norm_num [hmm] : mm < 2 ^ 7)
  have h7 : (x ^^^ mm).testBit 7 = x.testBit 7 := by
    simp [Nat.testBit_xor, h7mm]
  have h2mm : 2 * mm < 256 := by omega
  rw [crc8Round_testBit_form (x ^^^ mm) hxm, crc8Round_testBit_form x hx, h7]
  cases h7x : x.testBit 7
  · rw [if_neg (by simp), if_neg (by simp)]
    rw [two_mul_xor, xor_mod_256, Nat.mod_eq_of_lt h2mm]
    rw [Nat.mod_eq_of_lt (xor_lt_256 (Nat.mod_lt _ (by norm_num)) h2mm)]
  · rw [if_pos rfl, if_pos rfl]
    rw [two_mul_xor, Nat.xor_assoc, Nat.xor_comm (2 * mm) 49, ← Nat.xor_assoc,
      xor_mod_256, Nat.mod_eq_of_lt h2mm]
    rw [Nat.mod_eq_of_lt (xor_lt_256 (Nat.mod_lt _ (by norm_num)) h2mm)]

/-- A number below `2^(k+1)` splits as its top bit xor its low `k` bits. -/
theorem split_top_bit (k m : ℕ) (hm : m < 2 ^ (k + 1)) :
    m = (if m.testBit k then 2 ^ k else 0) ^^^ (m % 2 ^ k) := by
  apply Nat.eq_of_testBit_eq
  intro i
  rcases lt_trichotomy i k with hik | hik | hik
  · have hki : (2 ^ k).testBit i = false := Nat.testBit_two_pow_of_ne (by omega)
    by_cases hb : m.testBit k <;>
      simp [hb, Nat.testBit_xor, Nat.testBit_mod_two_pow, hik, hki]
  · subst hik
    by_cases hb : m.testBit i <;>
      simp [hb, Nat.testBit_xor, Nat.testBit_mod_two_pow,
        Nat.testBit_two_pow_self]
  · have hmi : m.testBit i = false :=
      Nat.testBit_eq_false_of_lt
        (lt_of_lt_of_le hm (Nat.pow_le_pow_right (by norm_num) (by omega)))
    have hri : (m % 2 ^ k).testBit i = false := by
      simp [Nat.testBit_mod_two_pow, show ¬i < k by omega]
    have hki : (2 ^ k).testBit i = false := Nat.testBit_two_pow_of_ne (by omega)
    by_cases hb : m.testBit k <;>
      simp [hb, Nat.testBit_xor, hmi, hri, hki]

/-- MSB-first bit lists peel from the top. -/
theorem natBitsMSB_succ (k m : ℕ) :
    natBitsMSB (k + 1) m = m.testBit k :: natBitsMSB k m := by
  simp [natBitsMSB, List.range_succ]

/-- Only the low `k` bits matter for the `k`-bit MSB-first list. -/
theorem natBitsMSB_mod (k m : ℕ) :
    natBitsMSB k (m % 2 ^ k) = natBitsMSB k m := by
  unfold natBitsMSB
  apply List.map_congr_left
  intro i hi
  have hik : i < k := by
    rw [List.mem_reverse, List.mem_range] at hi
    exact hi
  simp [Nat.testBit_mod_two_pow, hik]

/-- Feeding the `k` MSB-first bits of `m` bit-serially from a byte state `s`
equals `k` shift rounds on the state with `m`'s bits xored in, aligned so
that the first bit to be consumed sits at the MSB. -/
theorem foldl_crcBitStep_eq : ∀ (k : ℕ), k ≤ 8 → ∀ (s m : ℕ), s < 256 →
    m < 2 ^ k →
    (natBitsMSB k m).foldl crcBitStep s = crc8Round^[k] (s ^^^ m * 2 ^ (8 - k)) := by
  intro k
  induction k with
  | zero =>
    intro _ s m hs hm
    have hm0 : m = 0 := by omega
    subst hm0
    simp [natBitsMSB]
  | succ k ih =>
    intro hk s m hs hm
    have hk7 : k ≤ 7 := by omega
    have hpow : (0 : ℕ) < 2 ^ (7 - k) := pow_pos (by norm_num) _
    have hpow8 : (0 : ℕ) < 2 ^ (8 - k) := pow_pos (by norm_num) _
    have hr : m % 2 ^ k < 2 ^ k := Nat.mod_lt _ (pow_pos (by norm_num) k)
    rw [natBitsMSB_succ, List.foldl_cons, ← natBitsMSB_mod k m,
      ih (by omega) (crcBitStep s (m.testBit k)) (m % 2 ^ k)
        (crcBitStep_lt s (m.testBit k)) hr]
    rw [show 8 - (k + 1) = 7 - k by omega, Function.iterate_succ_apply]
    congr 1
    have hmmlt : m % 2 ^ k * 2 ^ (7 - k) < 128 := by
      calc m % 2 ^ k * 2 ^ (7 - k) < 2 ^ k * 2 ^ (7 - k) :=
            (Nat.mul_lt_mul_right hpow).mpr hr
        _ = 2 ^ 7 := by rw [← pow_add]; congr 1; omega
        _ = 128 := by norm_num
    have htop : (if m.testBit k then 2 ^ k else 0) * 2 ^ (7 - k) =
        (if m.testBit k then 128 else 0) := by
      by_cases hb : m.testBit k <;> simp only [hb, if_true, if_false]
      · rw [← pow_add, show k + (7 - k) = 7 by omega]
        norm_num
      · exact Nat.zero_mul _
    have hsplit := split_top_bit k m hm
    symm
    calc crc8Round (s ^^^ m * 2 ^ (7 - k))
        = crc8Round ((s ^^^ (if m.testBit k then 128 else 0)) ^^^
            m % 2 ^ k * 2 ^ (7 - k)) := by
          rw [Nat.xor_assoc]
          congr 2
          rw [← htop, ← mul_two_pow_xor, ← hsplit]
      _ = (crc8Round (s ^^^ (if m.testBit k then 128 else 0)) ^^^
            2 * (m % 2 ^ k * 2 ^ (7 - k))) % 256 :=
          crc8Round_xor_low _ _
            (xor_lt_256 hs (by by_cases hb : m.testBit k <;> simp [hb])) hmmlt
      _ = (crcBitStep s (m.testBit k) ^^^ m % 2 ^ k * 2 ^ (8 - k)) % 256 := by
          rw [← crcBitStep_eq_round s hs]
          congr 1
          rw [show 8 - k = (7 - k) + 1 by omega, pow_succ]
          ring_nf
      _ = crcBitStep s (m.testBit k) ^^^ m % 2 ^ k * 2 ^ (8 - k) := by
          apply Nat.mod_eq_of_lt
          apply xor_lt_256 (crcBitStep_lt _ _)
          calc m % 2 ^ k * 2 ^ (8 - k) < 2 ^ k * 2 ^ (8 - k) :=
                (Nat.mul_lt_mul_right hpow8).mpr hr
            _ = 2 ^ 8 := by rw [← pow_add]; congr 1; omega
            _ = 256 := by norm_num

/-- One byte processed bit-serially MSB-first equals one `crc8Update`. -/
theorem crc8Update_eq_bits (c b : ℕ) (hc : c < 256) (hb : b < 256) :
    (natBitsMSB 8 b).foldl crcBitStep c = crc8Update c b := by
  have h : (natBitsMSB 8 b).foldl crcBitStep c =
      crc8Round^[8] (c ^^^ b * 2 ^ (8 - 8)) :=
    foldl_crcBitStep_eq 8 le_rfl c b hc (by simpa using hb)
  rw [h]
  unfold crc8Update
  congr 1
  rw [Nat.mod_eq_of_lt (xor_lt_256 hc hb)]
  norm_num

/-- The byte-at-a-time `crc8` of the code equals the bit-serial reference
CRC on every byte list. -/
theorem crc8_eq_crc8Ref (data : List ℕ) (h : ∀ x ∈ data, x < 256) :
    crc8 data = crc8Ref data := by
  unfold crc8 crc8Ref
  have main : ∀ (l : List ℕ), (∀ x ∈ l, x < 256) → ∀ (s : ℕ), s < 256 →
      l.foldl crc8Update s =
        l.foldl (fun st b => (natBitsMSB 8 b).foldl crcBitStep st) s := by
    intro l
    induction l with
    | nil =>
      intro _ s _
      rw [List.foldl_nil, List.foldl_nil]
    | cons x xs ih =>
      intro hl s hs
      simp only [List.foldl_cons]
      rw [crc8Update_eq_bits s x hs (hl x (by simp))]
      exact ih (fun y hy => hl y (by simp [hy])) _ (crc8Update_lt s x)
  exact main data h 255 (by norm_num)

/-- Xor cancels on the left. -/
theorem xor_left_cancel {a b c : ℕ} (h : a ^^^ b = a ^^^ c) : b = c := by
  calc b = a ^^^ (a ^^^ b) := (Nat.xor_cancel_left a b).symm
    _ = a ^^^ (a ^^^ c) := by rw [h]
    _ = c := Nat.xor_cancel_left a c

/-- Xor cancels on the right. -/
theorem xor_right_cancel {a b c : ℕ} (h : a ^^^ c = b ^^^ c) : a = b := by
  calc a = (a ^^^ c) ^^^ c := (Nat.xor_cancel_right c a).symm
    _ = (b ^^^ c) ^^^ c := by rw [h]
    _ = b := Nat.xor_cancel_right c b

/-- Xoring an even number with 49 makes it odd. -/
theorem xor49_odd (a : ℕ) (ha : a % 2 = 0) : (a ^^^ 49) % 2 = 1 := by
  have h0 : a.testBit 0 = false := by
    rw [Nat.testBit_to_div_mod]
    simp [ha]
  have h1 : (a ^^^ 49).testBit 0 = true := by
    rw [Nat.testBit_xor, h0]
    decide
  rw [Nat.testBit_to_div_mod] at h1
  have h2 := of_decide_eq_true h1
  rw [pow_zero, Nat.div_one] at h2
  exact h2

/-- One shift round is injective on the byte range. -/
theorem crc8Round_injOn {x y : ℕ} (hx : x < 256) (hy : y < 256)
    (h : crc8Round x = crc8Round y) : x = y := by
  unfold crc8Round at h
  by_cases h7x : 128 ≤ x <;> by_cases h7y : 128 ≤ y
  · rw [if_pos h7x, if_pos h7y, xor_mod_256, xor_mod_256] at h
    have h2 : 2 * x % 256 = 2 * y % 256 := xor_right_cancel h
    omega
  · rw [if_pos h7x, if_neg h7y, xor_mod_256] at h
    have hodd := xor49_odd (2 * x % 256) (by omega)
    rw [show (49 : ℕ) % 256 = 49 by norm_num] at h
    rw [h] at hodd
    omega
  · rw [if_neg h7x, if_pos h7y, xor_mod_256] at h
    have hodd := xor49_odd (2 * y % 256) (by omega)
    rw [show (49 : ℕ) % 256 = 49 by norm_num] at h
    rw [← h] at hodd
    omega
  · rw [if_neg h7x, if_neg h7y] at h
    omega

/-- Iterated shift rounds are injective on the byte range. -/
theorem crc8Round_iterate_injOn (n : ℕ) :
    ∀ {x y : ℕ}, x < 256 → y < 256 →
      crc8Round^[n] x = crc8Round^[n] y → x = y := by
  induction n with
  | zero => intro x y _ _ h; simpa using h
  | succ n ih =>
    intro x y hx hy h
    rw [Function.iterate_succ_apply, Function.iterate_succ_apply] at h
    exact crc8Round_injOn hx hy (ih (crc8Round_lt x) (crc8Round_lt y) h)

/-- One byte step is injective in the data byte. -/
theorem crc8Update_inj_byte {s b b2 : ℕ} (hs : s < 256) (hb : b < 256)
    (hb2 : b2 < 256) (h : crc8Update s b = crc8Update s b2) : b = b2 := by
  unfold crc8Update at h
  have h2 := crc8Round_iterate_injOn 8 (Nat.mod_lt _ (by norm_num))
    (Nat.mod_lt _ (by norm_num)) h
  rw [Nat.mod_eq_of_lt (xor_lt_256 hs hb),
    Nat.mod_eq_of_lt (xor_lt_256 hs hb2)] at h2
  exact xor_left_cancel h2

/-- One byte step is injective in the entering state. -/
theorem crc8Update_inj_state {s s2 b : ℕ} (hs : s < 256) (hs2 : s2 < 256)
    (hb : b < 256) (h : crc8Update s b = crc8Update s2 b) : s = s2 := by
  unfold crc8Update at h
  have h2 := crc8Round_iterate_injOn 8 (Nat.mod_lt _ (by norm_num))
    (Nat.mod_lt _ (by norm_num)) h
  rw [Nat.mod_eq_of_lt (xor_lt_256 hs hb),
    Nat.mod_eq_of_lt (xor_lt_256 hs2 hb)] at h2
  exact xor_right_cancel h2

/-- `crc8` on a two-byte word, unfolded. -/
theorem crc8_pair_eq (a b : ℕ) :
    crc8 [a, b] = crc8Update (crc8Update 255 a) b := by
  unfold crc8
  rw [List.foldl_cons, List.foldl_cons, List.foldl_nil]

/-- Changing the first byte of a two-byte word changes its CRC. -/
theorem crc8_pair_ne_fst {a a2 b : ℕ} (ha : a < 256) (ha2 : a2 < 256)
    (hb : b < 256) (hne : a ≠ a2) : crc8 [a, b] ≠ crc8 [a2, b] := by
  intro h
  rw [crc8_pair_eq, crc8_pair_eq] at h
  have h1 : crc8Update 255 a = crc8Update 255 a2 :=
    crc8Update_inj_state (crc8Update_lt 255 a) (crc8Update_lt 255 a2) hb h
  exact hne (crc8Update_inj_byte (by norm_num) ha ha2 h1)

/-- Changing the second byte of a two-byte word changes its CRC. -/
theorem crc8_pair_ne_snd {a b b2 : ℕ} (hb : b < 256) (hb2 : b2 < 256)
    (hne : b ≠ b2) : crc8 [a, b] ≠ crc8 [a, b2] := by
  intro h
  rw [crc8_pair_eq, crc8_pair_eq] at h
  exact hne (crc8Update_inj_byte (crc8Update_lt 255 a) hb hb2 h)

/-- C8.  The code's `crc8` coincides with the reference CRC-8 — polynomial
0x31, initial value 0xFF, MSB-first bit order, no final XOR, here written as
a bit-serial LFSR — on every byte list (it is a pure function of its input
bytes by construction); consequently, corrupting any single byte of a
6-byte temperature/humidity response that passes both CRC checks makes at
least one check fail, and the reader reports failure (`none`). -/
theorem spec_C8_crc8 :
    (∀ data : List ℕ, (∀ x ∈ data, x < 256) → crc8 data = crc8Ref data) ∧
    (∀ (raw : List ℕ) (i b2 : ℕ), raw.length = 6 → (∀ x ∈ raw, x < 256) →
      i < 6 → b2 < 256 → b2 ≠ raw.getD i 0 →
      (readSHT31Decode raw).isSome = true →
      readSHT31Decode (raw.set i b2) = none) := by
  refine ⟨crc8_eq_crc8Ref, ?_⟩
  intro raw i b2 hlen hbytes hi hb2 hb2ne hsome
  rcases raw with _ | ⟨a0, raw⟩
  · simp at hlen
  rcases raw with _ | ⟨a1, raw⟩
  · simp at hlen
  rcases raw with _ | ⟨a2, raw⟩
  · simp at hlen
  rcases raw with _ | ⟨a3, raw⟩
  · simp at hlen
  rcases raw with _ | ⟨a4, raw⟩
  · simp at hlen
  rcases raw with _ | ⟨a5, raw⟩
  · simp at hlen
  rcases raw with _ | ⟨a6, raw⟩
  · have ha0 : a0 < 256 := hbytes a0 (by simp)
    have ha1 : a1 < 256 := hbytes a1 (by simp)
    have ha2 : a2 < 256 := hbytes a2 (by simp)
    have ha3 : a3 < 256 := hbytes a3 (by simp)
    have ha4 : a4 < 256 := hbytes a4 (by simp)
    have ha5 : a5 < 256 := hbytes a5 (by simp)
    simp only [readSHT31Decode, List.getD_cons_zero, List.getD_cons_succ] at hsome
    have hc : crc8 [a0, a1] = a2 ∧ crc8 [a3, a4] = a5 := by
      split_ifs at hsome with h1 h2
      · simp at hsome
      · simp at hsome
      · exact ⟨not_ne_iff.mp h1, not_ne_iff.mp h2⟩
    interval_cases i
    · have hne2 : b2 ≠ a0 := hb2ne
      have hcrc : crc8 [b2, a1] ≠ a2 := by
        have h := crc8_pair_ne_fst hb2 ha0 ha1 hne2
        rw [hc.1] at h
        exact h
      simp only [List.set_cons_zero, readSHT31Decode, List.getD_cons_zero,
        List.getD_cons_succ]
      rw [if_pos hcrc]
    · have hne2 : b2 ≠ a1 := hb2ne
      have hcrc : crc8 [a0, b2] ≠ a2 := by
        have h := crc8_pair_ne_snd (a := a0) hb2 ha1 hne2
        rw [hc.1] at h
        exact h
      simp only [List.set_cons_succ, List.set_cons_zero, readSHT31Decode,
        List.getD_cons_zero, List.getD_cons_succ]
      rw [if_pos hcrc]
    · have hne2 : b2 ≠ a2 := hb2ne
      have hcrc : crc8 [a0, a1] ≠ b2 := by
        rw [hc.1]
        exact fun h => hne2 h.symm
      simp only [List.set_cons_succ, List.set_cons_zero, readSHT31Decode,
        List.getD_cons_zero, List.getD_cons_succ]
      rw [if_pos hcrc]
    · have hne2 : b2 ≠ a3 := hb2ne
      have hcrc : crc8 [b2, a4] ≠ a5 := by
        have h := crc8_pair_ne_fst hb2 ha3 ha4 hne2
        rw [hc.2] at h
        exact h
      simp only [List.set_cons_succ, List.set_cons_zero, readSHT31Decode,
        List.getD_cons_zero, List.getD_cons_succ]
      rw [if_neg (not_ne_iff.mpr hc.1), if_pos hcrc]
    · have hne2 : b2 ≠ a4 := hb2ne
      have hcrc : crc8 [a3, b2] ≠ a5 := by
        have h := crc8_pair_ne_snd (a := a3) hb2 ha4 hne2
        rw [hc.2] at h
        exact h
      simp only [List.set_cons_succ, List.set_cons_zero, readSHT31Decode,
        List.getD_cons_zero, List.getD_cons_succ]
      rw [if_neg (not_ne_iff.mpr hc.1), if_pos hcrc]
    · have hne2 : b2 ≠ a5 := hb2ne
      have hcrc : crc8 [a3, a4] ≠ b2 := by
        rw [hc.2]
        exact fun h => hne2 h.symm
      simp only [List.set_cons_succ, List.set_cons_zero, readSHT31Decode,
        List.getD_cons_zero, List.getD_cons_succ]
      rw [if_neg (not_ne_iff.mpr hc.1), if_pos hcrc]
  · simp at hlen

/-- A valid 6-byte SHT31 response: both words are 0x0000, whose CRC is
0x81 = 129. -/
def rawC8 : List ℕ := [0, 0, 129, 0, 0, 129]

/-- Witness for C8: the reference equality at the concrete frame bytes
0x42 0x4D, and the corruption property at the valid response `rawC8` with
its first byte overwritten by 1. -/
theorem spec_C8_crc8_witness :
    rawC8.length = 6 ∧ (∀ x ∈ rawC8, x < 256) ∧ (0 : ℕ) < 6 ∧ (1 : ℕ) < 256 ∧
    (1 : ℕ) ≠ rawC8.getD 0 0 ∧ (readSHT31Decode rawC8).isSome = true ∧
    crc8 [0x42, 0x4D] = crc8Ref [0x42, 0x4D] ∧
    readSHT31Decode (rawC8.set 0 1) = none :=
  ⟨by decide, by decide, by decide, by decide, by decide, by decide,
   spec_C8_crc8.1 [0x42, 0x4D] (by decide),
   spec_C8_crc8.2 rawC8 0 1 (by decide) (by decide) (by decide) (by decide)
     (by decide) (by decide)⟩
